import Mathlib

set_option autoImplicit false
set_option maxRecDepth 8000

/-
Shallow embedding of packages/core/src/browser/decorations-service.ts
(the decorations aggregation service: DecorationProviderWrapper and
DecorationsServiceImpl), together with models of the black-box
collaborators that the file imports from packages/core/src/common
(ternary search tree, emitters, disposables, cancellation sources and
promises), which are specified only at their interface boundary.

Conventions of the embedding:
- Resource identifiers (URI) are hierarchical paths, modelled as lists of
  path segments.
- The single-threaded cooperative concurrency model is made explicit:
  every operation is a pure state transformer, and the two continuations
  attached to an in-flight promise (its then-handler and catch-handler)
  are separate transformers (resolveRequest, rejectRequest) that the
  environment applies when the provider's future settles.
- Exceptions are modelled with Except: a synchronous throw from a
  provider surfaces as Except.error.
- Every CancellationTokenSource created by fetchData is identified by a
  a running per-wrapper counter (nextReq); the set of cancelled sources and
  the log of provideDecorations invocations are recorded in the state so
  that cancellation and (re-)fetching are observable.
- The two service-owned Emitter objects are modelled as event logs:
  firing an event appends it to the corresponding log; subscribers of
  an emitter observe exactly its log.
-/

/-- A resource identifier: the segments of a hierarchical path.
Modelled from the spec: the URI type (packages/core/src/common/uri.ts) is not
among the embedded sources; the spec requires of it only equality, the
hierarchical descendant-of containment test, and string round-trip (so
new URI(uri.toString()) is the identity). -/
abbrev Uri := List String

/-- Decoration (decorations-service.ts lines 28-34): an immutable value whose
fields are all optional. -/
structure Decoration where
  weight : Option Int := none
  color : Option String := none
  letter : Option String := none
  tooltip : Option String := none
  bubble : Option Bool := none
deriving DecidableEq, Repr

/-- JavaScript truthiness of the optional bubble field of a decoration,
as tested by the collection callback in getDecoration (line 217). -/
def bubbleTruthy (d : Decoration) : Bool := d.bubble == some true

/-- A value stored in a wrapper's ternary search tree: either an in-flight
DecorationDataRequest (lines 49-54), identified by the id of the
CancellationTokenSource it carries, or a settled present Decoration.
A settled absence is the JavaScript value undefined, which is observationally
the removal of the entry (see tstSet), so it has no constructor here. -/
inductive CacheVal where
  | request (rid : Nat)
  | deco (d : Decoration)
deriving DecidableEq, Repr

/-- Modelled from the spec: get(key) of the black-box hierarchical container
(packages/core/src/common/ternary-search-tree.ts, not among the embedded
sources), which returns the entry stored at the key or undefined. -/
def tstGet : List (Uri × CacheVal) → Uri → Option CacheVal
  | [], _ => none
  | e :: rest, u => if e.1 = u then some e.2 else tstGet rest u

/-- Modelled from the spec: delete(key) of the black-box hierarchical
container. -/
def tstDelete (m : List (Uri × CacheVal)) (u : Uri) : List (Uri × CacheVal) :=
  m.filter fun e => !(decide (e.1 = u))

/-- Modelled from the spec: set(key, entry) of the black-box hierarchical
container; it stores the entry at the key and returns the previous entry.
Storing the absence marker (the JavaScript value undefined) is observationally
removal - a later get returns undefined either way - so it is modelled as
removal. -/
def tstSet (m : List (Uri × CacheVal)) (u : Uri) (v : Option CacheVal) :
    Option CacheVal × List (Uri × CacheVal) :=
  (tstGet m u,
    match v with
    | none => tstDelete m u
    | some val => tstDelete m u ++ [(u, val)])

/-- Segment-wise test that the first path is an ancestor-or-self of the
second path. -/
def isPathAncestorOf : Uri → Uri → Bool
  | [], _ => true
  | _ :: _, [] => false
  | a :: as, b :: bs => decide (a = b) && isPathAncestorOf as bs

/-- k is a strict descendant of base: base is an ancestor of k and k is not
base itself. -/
def isStrictDescendantOf (k base : Uri) : Bool :=
  isPathAncestorOf base k && decide (k ≠ base)

/-- Modelled from the spec: findSuperstr(key) of the black-box hierarchical
container - the sequence of entries stored at strict descendants of the key,
or undefined when there are none. -/
def tstFindSuperstr (m : List (Uri × CacheVal)) (u : Uri) : Option (List CacheVal) :=
  let l := (m.filter fun e => isStrictDescendantOf e.1 u).map Prod.snd
  if l.isEmpty then none else some l

/-- The per-wrapper mutable state of a DecorationProviderWrapper: the
hierarchical cache (this.data), the counter supplying the ids of the
CancellationTokenSources created by fetchData (one fresh source per call),
the ids of the sources that have been cancelled, and the log of
provideDecorations invocations. -/
structure WrapperState where
  data : List (Uri × CacheVal)
  nextReq : Nat
  cancelled : List Nat
  calls : List Uri
deriving DecidableEq, Repr

/-- A ResourceDecorationChangeEvent (lines 36-38) as fired on the service's
main emitter: either the constant-true predicate, or the predicate capturing
knowsAbout over a wrapper cache (snapshotted at fire time under the
synchronous delivery of the single-threaded model). -/
inductive ChangeEvent where
  | all
  | knownBy (data : List (Uri × CacheVal))
deriving DecidableEq, Repr

/-- knowsAbout (lines 92-94): JavaScript truthiness of this.data.get(uri),
or-ed with Boolean(this.data.findSuperstr(uri)). A stored request or
decoration object is truthy; the absence marker undefined is falsy. -/
def knowsAboutData (m : List (Uri × CacheVal)) (u : Uri) : Bool :=
  (tstGet m u).isSome || (tstFindSuperstr m u).isSome

/-- The affectsResource predicate of a fired event. -/
def affectsResource : ChangeEvent → Uri → Bool
  | .all, _ => true
  | .knownBy m, u => knowsAboutData m u

/-- Modelled from the spec: the two Emitter objects owned by
DecorationsServiceImpl (the generic emitter primitive of
packages/core/src/common is not among the embedded sources; an emitter
delivers each fired event to its subscribers, modelled as the log of fired
events). delayed is the log of onDidChangeDecorationsDelayedEmitter, on which
keepItem fires single uris; main is the log of onDidChangeDecorationsEmitter,
whose event is the service's exposed onDidChangeDecorations (line 182). -/
structure Emitters where
  delayed : List Uri
  main : List ChangeEvent
deriving DecidableEq, Repr

/-- Modelled from the spec: the possible outcomes of a call to a provider's
provideDecorations (providers are external collaborators): a synchronous
Decoration-or-undefined (not a thenable), a thenable whose settlement is
delivered later (resolveRequest / rejectRequest), or a synchronous throw. -/
inductive ProvideResult where
  | syncVal (d : Option Decoration)
  | thenable
  | syncThrow (msg : String)

/-- A provider's provideDecorations, as a function of the queried uri. -/
abbrev Provider := Uri → ProvideResult

/-- Whether a provider outcome is a synchronous throw. -/
def isSyncThrow : ProvideResult → Bool
  | .syncThrow _ => true
  | _ => false

/-- keepItem (lines 164-172): store the settled value (a present decoration,
or undefined for absence); fire the uri on the delayed emitter exactly when
the new value is truthy or the previous entry was truthy. -/
def keepItem (ws : WrapperState) (em : Emitters) (u : Uri) (data : Option Decoration) :
    Option Decoration × WrapperState × Emitters :=
  let r := tstSet ws.data u (data.map CacheVal.deco)
  let em' := if data.isSome || r.1.isSome then { em with delayed := em.delayed ++ [u] } else em
  (data, { ws with data := r.2 }, em')

/-- fetchData (lines 126-162): cancel and delete a pending request for the
uri, create a fresh CancellationTokenSource, invoke the provider; on a
synchronous result settle at once through keepItem; on a thenable install a
Pending entry whose continuations are resolveRequest and rejectRequest; a
synchronous throw escapes (there is no try block around the provider call). -/
def fetchData (p : Provider) (ws : WrapperState) (em : Emitters) (u : Uri) :
    Except String (Option Decoration × WrapperState × Emitters) :=
  let ws1 :=
    match tstGet ws.data u with
    | some (CacheVal.request rid) =>
        { ws with cancelled := ws.cancelled ++ [rid], data := tstDelete ws.data u }
    | _ => ws
  let rid := ws1.nextReq
  let ws2 := { ws1 with nextReq := rid + 1, calls := ws1.calls ++ [u] }
  match p u with
  | .syncThrow e => .error e
  | .syncVal d =>
      let r := keepItem ws2 em u d
      .ok (r.1, r.2.1, r.2.2)
  | .thenable =>
      .ok (none, { ws2 with data := (tstSet ws2.data u (some (CacheVal.request rid))).2 }, em)

/-- The then-continuation of the pending request rid for uri u
(lines 143-146): settle through keepItem only if the cache still holds this
exact request; otherwise do nothing at all. -/
def resolveRequest (ws : WrapperState) (em : Emitters) (u : Uri) (rid : Nat)
    (data : Option Decoration) : WrapperState × Emitters :=
  if tstGet ws.data u = some (CacheVal.request rid) then
    let r := keepItem ws em u data
    (r.2.1, r.2.2)
  else (ws, em)

/-- The catch-continuation of the pending request rid for uri u
(lines 147-151): a rejection that is not the Canceled marker deletes the
entry (reverting it to Unknown) when the cache still holds this exact
request; a Canceled rejection, or a stale rejection, does nothing. -/
def rejectRequest (ws : WrapperState) (u : Uri) (rid : Nat) (isCanceled : Bool) :
    WrapperState :=
  if isCanceled = false ∧ tstGet ws.data u = some (CacheVal.request rid) then
    { ws with data := tstDelete ws.data u }
  else ws

/-- The exact-match emission of getOrRetrieve (lines 105-108): the callback
receives the item with isChild = false exactly when the item is truthy and
not a pending request. -/
def exactEmit : Option CacheVal → List (Decoration × Bool)
  | some (CacheVal.deco d) => [(d, false)]
  | _ => []

/-- The descendant emission of getOrRetrieve (lines 110-123): when
includeChildren, iterate the findSuperstr sequence and pass every truthy
non-pending value to the callback with isChild = true; pending and absent
descendants are skipped. -/
def childEmit (m : List (Uri × CacheVal)) (u : Uri) (ic : Bool) :
    List (Decoration × Bool) :=
  if ic then
    match tstFindSuperstr m u with
    | none => []
    | some vs => vs.filterMap fun v =>
        match v with
        | CacheVal.deco d => some (d, true)
        | _ => none
  else []

/-- getOrRetrieve (lines 96-124): look the uri up; when the entry is the
JavaScript undefined (never queried, or settled absent) trigger fetchData;
then emit the exact match and, when includeChildren, the resolved
descendants. The returned list records the callback invocations in order. -/
def getOrRetrieve (p : Provider) (ws : WrapperState) (em : Emitters) (u : Uri)
    (ic : Bool) : Except String (List (Decoration × Bool) × WrapperState × Emitters) :=
  match tstGet ws.data u with
  | some item => .ok (exactEmit (some item) ++ childEmit ws.data u ic, ws, em)
  | none =>
    match fetchData p ws em u with
    | .error e => .error e
    | .ok (d, ws', em') => .ok (exactEmit (d.map CacheVal.deco) ++ childEmit ws'.data u ic, ws', em')

/-- The selective branch of the provider change handler (lines 75-83): call
fetchData for every uri named in the notification, in order. -/
def fetchList (p : Provider) : WrapperState → Emitters → List Uri →
    Except String (WrapperState × Emitters)
  | ws, em, [] => .ok (ws, em)
  | ws, em, u :: rest =>
    match fetchData p ws em u with
    | .error e => .error e
    | .ok (_, ws', em') => fetchList p ws' em' rest

/-- The provider change subscription installed by the wrapper constructor
(lines 69-84): a falsy payload (no identifier list) clears the whole cache
and fires the constant-true event on the main emitter; a truthy payload (an
identifier list, possibly empty) re-fetches exactly the listed uris. -/
def handleChange (p : Provider) (ws : WrapperState) (em : Emitters)
    (uris : Option (List Uri)) : Except String (WrapperState × Emitters) :=
  match uris with
  | none => .ok ({ ws with data := [] }, { em with main := em.main ++ [ChangeEvent.all] })
  | some l => fetchList p ws em l

/-- A DecorationProviderWrapper object: its identity tag (for indexOf in the
service's array), its provider, and its mutable state. -/
structure Wrapper where
  tag : Nat
  provider : Provider
  st : WrapperState

/-- The state of DecorationsServiceImpl: all wrapper objects ever created
(JavaScript object identity, keyed by tag; disposal clears a wrapper's cache
but the object itself survives in closures), the this.data array as the list
of active tags in registration order, the tag supply, and the two emitters. -/
structure ServiceState where
  store : List Wrapper
  active : List Nat
  nextTag : Nat
  em : Emitters

/-- Look a wrapper object up by its tag. -/
def findWrapper (store : List Wrapper) (tag : Nat) : Option Wrapper :=
  store.find? fun w => decide (w.tag = tag)

/-- Replace the state of the wrapper object with the given tag. -/
def updateWrapper (store : List Wrapper) (tag : Nat) (st : WrapperState) : List Wrapper :=
  store.map fun w => if w.tag = tag then { w with st := st } else w

/-- The state of the wrapper with the given tag, when it exists. -/
def wrapperSt (s : ServiceState) (tag : Nat) : Option WrapperState :=
  (findWrapper s.store tag).map Wrapper.st

/-- The empty wrapper state of a freshly constructed DecorationProviderWrapper
(line 67: a fresh ternary search tree). -/
def initWrapper : WrapperState := ⟨[], 0, [], []⟩

/-- Both emitters before anything fired. -/
def initEmitters : Emitters := ⟨[], []⟩

/-- A freshly constructed DecorationsServiceImpl. -/
def initService : ServiceState := ⟨[], [], 0, initEmitters⟩

/-- registerDecorationsProvider (lines 189-210, up to the returned handle):
construct a wrapper around the provider, push it onto this.data, fire the
constant-true event on the main emitter; the returned handle is the new
wrapper's tag. -/
def registerDecorationsProvider (s : ServiceState) (p : Provider) : Nat × ServiceState :=
  (s.nextTag,
    { store := s.store ++ [⟨s.nextTag, p, initWrapper⟩]
      active := s.active ++ [s.nextTag]
      nextTag := s.nextTag + 1
      em := { s.em with main := s.em.main ++ [ChangeEvent.all] } })

/-- JavaScript Array.prototype.indexOf over the active-tag array: the index
of the first occurrence, or -1. -/
def jsIndexOf (l : List Nat) (t : Nat) : Int :=
  match l.findIdx? fun x => decide (x = t) with
  | some i => (i : Int)
  | none => -1

/-- JavaScript Array.prototype.splice(start, 1): a negative start counts from
the end (clamped at 0), a start at or beyond the length removes nothing;
otherwise the one element at start is removed. -/
def jsSplice1 (l : List Nat) (i : Int) : List Nat :=
  let s : Nat := if i < 0 then ((l.length : Int) + i).toNat else min i.toNat l.length
  l.take s ++ l.drop (s + 1)

/-- The disposal callback captured by the handle that
registerDecorationsProvider returns (lines 203-209): splice the wrapper out
of this.data at indexOf(wrapper), fire the knowsAbout-scoped event on the
main emitter, then dispose the wrapper (clearing its cache; the subscription
teardown has no further observable effect here). -/
def disposeHandle (s : ServiceState) (tag : Nat) : ServiceState :=
  let active' := jsSplice1 s.active (jsIndexOf s.active tag)
  let wdata := ((findWrapper s.store tag).map fun w => w.st.data).getD []
  { s with
    active := active'
    em := { s.em with main := s.em.main ++ [ChangeEvent.knownBy wdata] }
    store := updateWrapper s.store tag
      (((findWrapper s.store tag).map fun w => { w.st with data := [] }).getD initWrapper) }

/-- Modelled from the spec: Disposable.create
(packages/core/src/common/disposable.ts, not among the embedded sources) is a
black-box disposable-resource primitive that wraps a callback into a handle
whose dispose() invokes the callback; nothing in the primitive suppresses a
second invocation, so disposing the same registration handle twice runs the
disposal callback twice. -/
def disposeHandleTwice (s : ServiceState) (tag : Nat) : ServiceState :=
  disposeHandle (disposeHandle s tag) tag

/-- The collection callback of getDecoration (lines 216-221): a decoration
passed with isChild = false is always pushed; one passed with isChild = true
is pushed only when its bubble flag is truthy. -/
def collectCallback (r : List (Decoration × Bool)) : List Decoration :=
  (r.filter fun x => !x.2 || bubbleTruthy x.1).map Prod.fst

/-- One pass of getDecoration over the active wrappers in order: fan the
query out via getOrRetrieve and concatenate each wrapper's collected
decorations. -/
def runWrappers (u : Uri) (ic : Bool) : List Nat → List Wrapper → Emitters →
    Except String (List Decoration × List Wrapper × Emitters)
  | [], store, em => .ok ([], store, em)
  | tag :: rest, store, em =>
    match findWrapper store tag with
    | none => runWrappers u ic rest store em
    | some w =>
      match getOrRetrieve w.provider w.st em u ic with
      | .error e => .error e
      | .ok (r, ws', em') =>
        match runWrappers u ic rest (updateWrapper store tag ws') em' with
        | .error e => .error e
        | .ok (out, store', em'') => .ok (collectCallback r ++ out, store', em'')

/-- getDecoration (lines 212-224): query every active wrapper in registration
order, collecting through the bubble-filtering callback. -/
def getDecoration (s : ServiceState) (u : Uri) (ic : Bool) :
    Except String (List Decoration × ServiceState) :=
  match runWrappers u ic s.active s.store s.em with
  | .error e => .error e
  | .ok (out, store', em') => .ok (out, { s with store := store', em := em' })

/-- The log of events a subscriber of the service's exposed
onDidChangeDecorations (line 182) observes: exactly what was fired on
onDidChangeDecorationsEmitter. -/
def onDidChangeDecorationsLog (s : ServiceState) : List ChangeEvent := s.em.main

/-- A provider that synchronously resolves to no decoration for every uri. -/
def pAbsent : Provider := fun _ => ProvideResult.syncVal none

/-- A provider that returns a thenable for every uri. -/
def pAsync : Provider := fun _ => ProvideResult.thenable

/-- A provider that synchronously throws for every uri. -/
def pThrow : Provider := fun _ => ProvideResult.syncThrow "boom"

/-- A concrete present decoration without bubble. -/
def redDeco : Decoration := { color := some "red" }

/-- A concrete present decoration with bubble set. -/
def bubbleDeco : Decoration := { color := some "red", bubble := some true }

/-- The identifier a. -/
def uA : Uri := ["a"]

/-- The identifier b. -/
def uB : Uri := ["b"]

/-- The identifier a/b, a strict descendant of a. -/
def uAB : Uri := ["a", "b"]

/-- The decorations a settled exact-match entry contributes: the decoration
when the entry at the uri is a settled present one, nothing otherwise. -/
def exactList (m : List (Uri × CacheVal)) (u : Uri) : List Decoration :=
  match tstGet m u with
  | some (CacheVal.deco d) => [d]
  | _ => []

/-- The settled present decorations stored at strict descendants of the uri,
in cache order. -/
def childDecos (m : List (Uri × CacheVal)) (u : Uri) : List Decoration :=
  (match tstFindSuperstr m u with
   | none => []
   | some vs => vs).filterMap fun v =>
    match v with
    | CacheVal.deco d => some d
    | _ => none

/-- The descendant decorations that survive the bubble filter. -/
def bubbledChildren (m : List (Uri × CacheVal)) (u : Uri) : List Decoration :=
  (childDecos m u).filter bubbleTruthy

/-- Looking a key up in a concatenation tries the left part first. -/
theorem tstGet_append (l1 l2 : List (Uri × CacheVal)) (u : Uri) :
    tstGet (l1 ++ l2) u = ((tstGet l1 u).or (tstGet l2 u)) := by
  induction l1 with
  | nil => simp [tstGet]
  | cons e rest ih =>
    by_cases h : e.1 = u <;> simp [tstGet, h, ih]

/-- After deleting a key, looking that key up yields nothing. -/
theorem tstGet_delete_self (m : List (Uri × CacheVal)) (u : Uri) :
    tstGet (tstDelete m u) u = none := by
  induction m with
  | nil => rfl
  | cons e rest ih =>
    by_cases h : e.1 = u
    · simpa [tstDelete, List.filter_cons, h] using ih
    · simpa [tstDelete, List.filter_cons, h, tstGet] using ih

/-- Deleting one key leaves every other key unchanged. -/
theorem tstGet_delete_ne (m : List (Uri × CacheVal)) (u v : Uri) (h : v ≠ u) :
    tstGet (tstDelete m u) v = tstGet m v := by
  have hu : ¬ (u = v) := fun x => h x.symm
  induction m with
  | nil => rfl
  | cons e rest ih =>
    simp only [tstDelete, List.filter_cons] at ih ⊢
    by_cases he : e.1 = u
    · simp [he, tstGet, hu, ih]
    · simp [he, tstGet, ih]

/-- After set, looking the written key up yields exactly the written entry
(none when the absence marker was written). -/
theorem tstGet_set_self (m : List (Uri × CacheVal)) (u : Uri) (x : Option CacheVal) :
    tstGet (tstSet m u x).2 u = x := by
  cases x with
  | none => simpa [tstSet] using tstGet_delete_self m u
  | some v =>
    simp [tstSet, tstGet_append, tstGet_delete_self, tstGet]

/-- Set touches only the written key. -/
theorem tstGet_set_ne (m : List (Uri × CacheVal)) (u : Uri) (x : Option CacheVal)
    (v : Uri) (h : v ≠ u) : tstGet (tstSet m u x).2 v = tstGet m v := by
  cases x with
  | none => simpa [tstSet] using tstGet_delete_ne m u v h
  | some w =>
    have hu : ¬ (u = v) := fun hv => h hv.symm
    simp [tstSet, tstGet_append, tstGet_delete_ne m u v h, tstGet, hu]

/-- The collection callback distributes over concatenation of emissions. -/
theorem collectCallback_append (a b : List (Decoration × Bool)) :
    collectCallback (a ++ b) = collectCallback a ++ collectCallback b := by
  simp [collectCallback, List.filter_append]

/-- The collection callback keeps an exact-match emission unconditionally. -/
theorem collectCallback_exactEmit (it : Option CacheVal) :
    collectCallback (exactEmit it) =
      match it with
      | some (CacheVal.deco d) => [d]
      | _ => [] := by
  match it with
  | none => rfl
  | some (CacheVal.request _) => rfl
  | some (CacheVal.deco d) => rfl

/-- The collection callback keeps a descendant emission exactly when its
bubble flag is truthy. -/
theorem collectCallback_childList (vs : List CacheVal) :
    collectCallback (vs.filterMap fun v =>
      match v with
      | CacheVal.deco d => some (d, true)
      | _ => none)
    = (vs.filterMap fun v =>
        match v with
        | CacheVal.deco d => some d
        | _ => none).filter bubbleTruthy := by
  induction vs with
  | nil => rfl
  | cons v rest ih =>
    cases v with
    | request rid => simpa [List.filterMap_cons] using ih
    | deco d =>
      simp only [List.filterMap_cons, collectCallback, List.filter_cons] at ih ⊢
      by_cases hb : bubbleTruthy d = true <;> simp [hb, ih]

/-- The collection callback turns the descendant emissions of getOrRetrieve
into exactly the bubbled descendant decorations. -/
theorem collectCallback_childEmit (m : List (Uri × CacheVal)) (u : Uri) (ic : Bool) :
    collectCallback (childEmit m u ic) = if ic then bubbledChildren m u else [] := by
  cases ic with
  | false => rfl
  | true =>
    simp only [childEmit, bubbledChildren, childDecos, if_true]
    cases tstFindSuperstr m u with
    | none => rfl
    | some vs => exact collectCallback_childList vs

/-- keepItem leaves every cache entry other than the written one unchanged. -/
theorem keepItem_frame (ws : WrapperState) (em : Emitters) (u : Uri)
    (d : Option Decoration) (v : Uri) (h : v ≠ u) :
    tstGet (keepItem ws em u d).2.1.data v = tstGet ws.data v := by
  simp [keepItem, tstGet_set_ne ws.data u _ v h]

/-- keepItem writes exactly the settled value at the written key. -/
theorem keepItem_self (ws : WrapperState) (em : Emitters) (u : Uri)
    (d : Option Decoration) :
    tstGet (keepItem ws em u d).2.1.data u = d.map CacheVal.deco := by
  simp [keepItem, tstGet_set_self]

/-- One fetchData call that does not synchronously throw succeeds, records
exactly one provider invocation and one fresh cancellation source, and leaves
every cache entry other than the queried one unchanged. -/
theorem fetchData_spec (p : Provider) (ws : WrapperState) (em : Emitters) (u : Uri)
    (h : isSyncThrow (p u) = false) :
    ∃ d ws' em', fetchData p ws em u = .ok (d, ws', em') ∧
      ws'.calls = ws.calls ++ [u] ∧
      ws'.nextReq = ws.nextReq + 1 ∧
      ∀ v, v ≠ u → tstGet ws'.data v = tstGet ws.data v := by
  rcases hp : p u with d | _ | e
  case syncThrow => rw [hp] at h; simp [isSyncThrow] at h
  case syncVal =>
    rcases hg : tstGet ws.data u with _ | val
    · refine ⟨d, _, _, by simp only [fetchData, hg, hp]; rfl, by simp [keepItem], by simp [keepItem], ?_⟩
      intro v hv
      simp [keepItem, tstGet_set_ne _ u _ v hv]
    · cases val with
      | request rid =>
        refine ⟨d, _, _, by simp only [fetchData, hg, hp]; rfl, by simp [keepItem], by simp [keepItem], ?_⟩
        intro v hv
        simp [keepItem, tstGet_set_ne _ u _ v hv, tstGet_delete_ne _ u v hv]
      | deco dd =>
        refine ⟨d, _, _, by simp only [fetchData, hg, hp]; rfl, by simp [keepItem], by simp [keepItem], ?_⟩
        intro v hv
        simp [keepItem, tstGet_set_ne _ u _ v hv]
  case thenable =>
    rcases hg : tstGet ws.data u with _ | val
    · refine ⟨none, _, _, by simp only [fetchData, hg, hp]; rfl, by simp, by simp, ?_⟩
      intro v hv
      simp [tstGet_set_ne _ u _ v hv]
    · cases val with
      | request rid =>
        refine ⟨none, _, _, by simp only [fetchData, hg, hp]; rfl, by simp, by simp, ?_⟩
        intro v hv
        simp [tstGet_set_ne _ u _ v hv, tstGet_delete_ne _ u v hv]
      | deco dd =>
        refine ⟨none, _, _, by simp only [fetchData, hg, hp]; rfl, by simp, by simp, ?_⟩
        intro v hv
        simp [tstGet_set_ne _ u _ v hv]

/-- Claim C1: when a second fetch for an identifier starts while a first
request is still Pending, fetchData cancels the first request's token source
and removes its entry before installing its own (for a thenable second fetch
the entry afterwards is the fresh request); and the first request's
continuations - its then-handler resolveRequest and its catch-handler
rejectRequest - are complete no-ops on the resulting state: no cache write
and no event emission, so only the second fetch's result can ever be written
for that identifier. -/
theorem c1_supersede_cancels_first (p : Provider) (ws : WrapperState) (em : Emitters)
    (u : Uri) (rid1 : Nat)
    (hpend : tstGet ws.data u = some (CacheVal.request rid1))
    (hfresh : rid1 < ws.nextReq)
    (hnothrow : isSyncThrow (p u) = false) :
    ∃ d ws' em', fetchData p ws em u = .ok (d, ws', em') ∧
      rid1 ∈ ws'.cancelled ∧
      tstGet ws'.data u ≠ some (CacheVal.request rid1) ∧
      (p u = ProvideResult.thenable →
        tstGet ws'.data u = some (CacheVal.request ws.nextReq)) ∧
      (∀ dd, resolveRequest ws' em' u rid1 dd = (ws', em')) ∧
      (∀ b, rejectRequest ws' u rid1 b = ws') := by
  rcases hp : p u with d | _ | e
  case syncThrow => rw [hp] at hnothrow; simp [isSyncThrow] at hnothrow
  case syncVal =>
    have hsne : ∀ ws2 : WrapperState,
        tstGet (keepItem ws2 em u d).2.1.data u ≠ some (CacheVal.request rid1) := by
      intro ws2
      rw [keepItem_self]
      cases d <;> simp
    refine ⟨_, _, _, by simp only [fetchData, hpend, hp]; rfl, ?_, hsne _, ?_, ?_, ?_⟩
    · simp [keepItem]
    · intro ht; simp at ht
    · intro dd
      unfold resolveRequest
      rw [if_neg (hsne _)]
    · intro b
      unfold rejectRequest
      rw [if_neg (fun hc => hsne _ hc.2)]
  case thenable =>
    have hself : tstGet (tstSet (tstDelete ws.data u) u
        (some (CacheVal.request ws.nextReq))).2 u = some (CacheVal.request ws.nextReq) :=
      tstGet_set_self _ u _
    have hsne : tstGet (tstSet (tstDelete ws.data u) u
        (some (CacheVal.request ws.nextReq))).2 u ≠ some (CacheVal.request rid1) := by
      rw [hself]
      simp
      omega
    refine ⟨_, _, _, by simp only [fetchData, hpend, hp]; rfl, ?_, hsne, ?_, ?_, ?_⟩
    · simp
    · intro _; exact hself
    · intro dd
      unfold resolveRequest
      rw [if_neg hsne]
    · intro b
      unfold rejectRequest
      rw [if_neg (fun hc => hsne hc.2)]

/-- Closed instance of claim C1: a concrete state holding the pending request
0 for identifier a, queried again against an asynchronous provider. -/
theorem c1_supersede_cancels_first_witness :
    tstGet (⟨[(uA, CacheVal.request 0)], 1, [], [uA]⟩ : WrapperState).data uA
        = some (CacheVal.request 0)
    ∧ (0 : Nat) < 1
    ∧ isSyncThrow (pAsync uA) = false
    ∧ ∃ d ws' em',
        fetchData pAsync ⟨[(uA, CacheVal.request 0)], 1, [], [uA]⟩ initEmitters uA
          = .ok (d, ws', em') ∧
        0 ∈ ws'.cancelled ∧
        tstGet ws'.data uA ≠ some (CacheVal.request 0) ∧
        (pAsync uA = ProvideResult.thenable →
          tstGet ws'.data uA = some (CacheVal.request 1)) ∧
        (∀ dd, resolveRequest ws' em' uA 0 dd = (ws', em')) ∧
        (∀ b, rejectRequest ws' uA 0 b = ws') :=
  ⟨by decide, by decide, by decide,
    c1_supersede_cancels_first pAsync ⟨[(uA, CacheVal.request 0)], 1, [], [uA]⟩
      initEmitters uA 0 (by decide) (by decide) (by decide)⟩

/-- Claim C2, evaluated at the failing input: a provider that settles with
explicit absence for identifier a. keepItem stores the JavaScript value
undefined (not the null marker the source comment promises), which is
indistinguishable from a missing entry, so the very next getOrRetrieve for
the same identifier calls provideDecorations again: the call log grows from
one invocation to two and a second cancellation source is created, where the
claim demands that the settled-absent state be cached and no new fetch be
triggered. -/
theorem c2_settled_absent_refetches :
    getOrRetrieve pAbsent initWrapper initEmitters uA false
      = .ok ([], ⟨[], 1, [], [uA]⟩, initEmitters)
    ∧ getOrRetrieve pAbsent ⟨[], 1, [], [uA]⟩ initEmitters uA false
      = .ok ([], ⟨[], 2, [], [uA, uA]⟩, initEmitters) := ⟨rfl, rfl⟩

/-- Claim C3, evaluated at the failing input: a registered asynchronous
provider whose pending fetch for identifier a settles with a present
decoration. The settlement fires the identifier on the internal delayed
emitter only; the log of the exposed onDidChangeDecorations still holds
nothing but the registration event, because nothing in the service ever
subscribes to or republishes the delayed emitter. -/
theorem c3_settlement_not_republished :
    (getDecoration (registerDecorationsProvider initService pAsync).2 uA false).map
        (fun x => (x.1, x.2.em, wrapperSt x.2 0))
      = .ok ([], ⟨[], [ChangeEvent.all]⟩, some ⟨[(uA, CacheVal.request 0)], 1, [], [uA]⟩)
    ∧ resolveRequest ⟨[(uA, CacheVal.request 0)], 1, [], [uA]⟩ ⟨[], [ChangeEvent.all]⟩
        uA 0 (some redDeco)
      = (⟨[(uA, CacheVal.deco redDeco)], 1, [], [uA]⟩, ⟨[uA], [ChangeEvent.all]⟩)
    ∧ onDidChangeDecorationsLog (registerDecorationsProvider initService pAsync).2
      = [ChangeEvent.all] := ⟨rfl, rfl, rfl⟩

/-- Claim C5: a provider change notification carrying no identifier list
clears that provider's entire cache - every entry, Pending ones included -
and fires on the exposed onDidChangeDecorations emitter an event whose
affectsResource predicate returns true for every identifier. -/
theorem c5_flush_clears_all_and_affects_everything (p : Provider)
    (ws : WrapperState) (em : Emitters) :
    handleChange p ws em none
      = .ok ({ ws with data := [] }, { em with main := em.main ++ [ChangeEvent.all] })
    ∧ ∀ u, affectsResource ChangeEvent.all u = true :=
  ⟨rfl, fun _ => rfl⟩

/-- Claim C9, evaluated at the failing input: two providers registered (tags
0 and 1), then the first registration's handle disposed twice. The first
disposal correctly leaves only wrapper 1 active; the second disposal runs
the callback again, indexOf now yields -1, and splice(-1, 1) removes the
last element of the array, so the never-disposed wrapper 1 disappears from
the active set - double-dispose is not a no-op. -/
theorem c9_double_dispose_removes_last_wrapper :
    ((disposeHandle (registerDecorationsProvider
        (registerDecorationsProvider initService pAsync).2 pAbsent).2 0).active = [1])
    ∧ ((disposeHandleTwice (registerDecorationsProvider
        (registerDecorationsProvider initService pAsync).2 pAbsent).2 0).active
        = []) := ⟨rfl, rfl⟩

/-- Claim C10: a provider change notification carrying a present but empty
identifier list is a complete no-op - the JavaScript emptiness test on the
array is truthy, so the flush branch is not taken, and the loop over the
empty list changes nothing: same wrapper state, same emitter logs, no fetch,
no event. -/
theorem c10_empty_notification_noop (p : Provider) (ws : WrapperState)
    (em : Emitters) :
    handleChange p ws em (some []) = .ok (ws, em) := rfl

/-- The selective re-fetch loop, specified as a whole: it succeeds when no
listed uri throws synchronously, invokes the provider once per listed uri in
order, creates one fresh cancellation source per listed uri, and leaves the
entry of every unlisted identifier untouched. -/
theorem fetchList_spec (p : Provider) (l : List Uri) :
    ∀ (ws : WrapperState) (em : Emitters),
      (∀ v ∈ l, isSyncThrow (p v) = false) →
      ∃ ws' em', fetchList p ws em l = .ok (ws', em') ∧
        ws'.calls = ws.calls ++ l ∧
        ws'.nextReq = ws.nextReq + l.length ∧
        ∀ v, v ∉ l → tstGet ws'.data v = tstGet ws.data v := by
  induction l with
  | nil =>
    intro ws em _
    exact ⟨ws, em, rfl, by simp, rfl, fun v _ => rfl⟩
  | cons uu rest ih =>
    intro ws em h
    obtain ⟨d, ws1, em1, heq, hc, hn, hf⟩ := fetchData_spec p ws em uu (h uu (by simp))
    obtain ⟨ws', em', heq2, hc2, hn2, hf2⟩ := ih ws1 em1 (fun v hv => h v (by simp [hv]))
    refine ⟨ws', em', by simp only [fetchList, heq, heq2], ?_, ?_, ?_⟩
    · rw [hc2, hc]; simp
    · rw [hn2, hn]; simp; omega
    · intro v hv
      have hvu : v ≠ uu := fun hvu => hv (by simp [hvu])
      have hvr : v ∉ rest := fun hvr => hv (by simp [hvr])
      rw [hf2 v hvr, hf v hvu]

/-- Claim C7: a provider change notification naming a non-empty identifier
list re-fetches exactly the named identifiers - one provideDecorations call
and one fresh cancellation source per named identifier, unconditionally,
with no precondition on their current cache state (Unknown included) - and
the cache entry of every identifier not named is left unchanged. -/
theorem c7_selective_refetch_exact_and_framed (p : Provider) (ws : WrapperState)
    (em : Emitters) (uris : List Uri)
    (h : ∀ v ∈ uris, isSyncThrow (p v) = false) :
    ∃ ws' em', handleChange p ws em (some uris) = .ok (ws', em') ∧
      ws'.calls = ws.calls ++ uris ∧
      ws'.nextReq = ws.nextReq + uris.length ∧
      ∀ v, v ∉ uris → tstGet ws'.data v = tstGet ws.data v := by
  obtain ⟨ws', em', heq, hrest⟩ := fetchList_spec p uris ws em h
  exact ⟨ws', em', by simpa [handleChange] using heq, hrest⟩

/-- Closed instance of claim C7: a state holding a settled decoration at b is
told that a changed; exactly a is fetched and the entry at b is untouched. -/
theorem c7_selective_refetch_exact_and_framed_witness :
    (∀ v ∈ [uA], isSyncThrow (pAbsent v) = false)
    ∧ ∃ ws' em',
        handleChange pAbsent ⟨[(uB, CacheVal.deco redDeco)], 0, [], []⟩ initEmitters
          (some [uA]) = .ok (ws', em') ∧
        ws'.calls = [] ++ [uA] ∧
        ws'.nextReq = 0 + 1 ∧
        ∀ v, v ∉ [uA] →
          tstGet ws'.data v
            = tstGet (⟨[(uB, CacheVal.deco redDeco)], 0, [], []⟩ : WrapperState).data v :=
  ⟨by decide,
    c7_selective_refetch_exact_and_framed pAbsent
      ⟨[(uB, CacheVal.deco redDeco)], 0, [], []⟩ initEmitters [uA] (by decide)⟩

/-- Claim C6: for a fetch that does not synchronously throw, the decorations
getDecoration collects from one wrapper are exactly the settled-present exact
match (always included, bubble or not) followed, when includeChildren is set,
by the settled-present strict-descendant decorations whose bubble flag is
truthy; Pending and absent descendants contribute nothing, and the only
identifier a fetch may be triggered for is the queried one itself (the call
log grows by at most the queried uri, and only when its entry was the
JavaScript undefined). -/
theorem c6_collection_rule (p : Provider) (ws : WrapperState) (em : Emitters)
    (u : Uri) (ic : Bool) (h : isSyncThrow (p u) = false) :
    ∃ r ws' em', getOrRetrieve p ws em u ic = .ok (r, ws', em') ∧
      collectCallback r
        = exactList ws'.data u ++ (if ic then bubbledChildren ws'.data u else []) ∧
      (ws'.calls = ws.calls ∨ (tstGet ws.data u = none ∧ ws'.calls = ws.calls ++ [u])) := by
  rcases hg : tstGet ws.data u with _ | it
  case some =>
    refine ⟨_, ws, em, by simp only [getOrRetrieve, hg]; rfl, ?_, Or.inl rfl⟩
    rw [collectCallback_append, collectCallback_exactEmit, collectCallback_childEmit]
    unfold exactList
    rw [hg]
  case none =>
    rcases hp : p u with d | _ | e
    case syncThrow => rw [hp] at h; simp [isSyncThrow] at h
    case syncVal =>
      refine ⟨_, _, _, by simp only [getOrRetrieve, hg, fetchData, hp]; rfl, ?_,
        Or.inr ⟨rfl, by simp [keepItem]⟩⟩
      rw [collectCallback_append, collectCallback_exactEmit, collectCallback_childEmit]
      unfold exactList
      rw [keepItem_self]
      cases d <;> rfl
    case thenable =>
      refine ⟨_, _, _, by simp only [getOrRetrieve, hg, fetchData, hp]; rfl, ?_,
        Or.inr ⟨rfl, by simp⟩⟩
      rw [collectCallback_append, collectCallback_exactEmit, collectCallback_childEmit]
      unfold exactList
      rw [tstGet_set_self]
      rfl

/-- Closed instance of claim C6: a cache holding a bubbling decoration at the
strict descendant a/b, queried at a with includeChildren. -/
theorem c6_collection_rule_witness :
    isSyncThrow (pAbsent uA) = false
    ∧ ∃ r ws' em',
        getOrRetrieve pAbsent ⟨[(uAB, CacheVal.deco bubbleDeco)], 0, [], []⟩
          initEmitters uA true = .ok (r, ws', em') ∧
        collectCallback r
          = exactList ws'.data uA
            ++ (if true then bubbledChildren ws'.data uA else []) ∧
        (ws'.calls = ([] : List Uri)
          ∨ (tstGet (⟨[(uAB, CacheVal.deco bubbleDeco)], 0, [], []⟩ : WrapperState).data uA
              = none ∧ ws'.calls = [] ++ [uA])) :=
  ⟨by decide,
    c6_collection_rule pAbsent ⟨[(uAB, CacheVal.deco bubbleDeco)], 0, [], []⟩
      initEmitters uA true (by decide)⟩

/-- getOrRetrieve succeeds whenever the provider does not synchronously
throw for the queried uri. -/
theorem getOrRetrieve_ok (p : Provider) (ws : WrapperState) (em : Emitters)
    (u : Uri) (ic : Bool) (h : isSyncThrow (p u) = false) :
    ∃ r ws' em', getOrRetrieve p ws em u ic = .ok (r, ws', em') := by
  rcases hg : tstGet ws.data u with _ | it
  · obtain ⟨d, ws', em', heq, -, -, -⟩ := fetchData_spec p ws em u h
    exact ⟨_, _, _, by simp only [getOrRetrieve, hg, heq]; rfl⟩
  · exact ⟨_, _, _, by simp only [getOrRetrieve, hg]; rfl⟩

/-- Updating one wrapper's state preserves any property of the providers in
the store. -/
theorem mem_updateWrapper_provider (store : List Wrapper) (tag : Nat)
    (st : WrapperState) (P : Provider → Prop) (h : ∀ w ∈ store, P w.provider) :
    ∀ w ∈ updateWrapper store tag st, P w.provider := by
  intro w hw
  rw [updateWrapper, List.mem_map] at hw
  obtain ⟨w0, hw0, hmap⟩ := hw
  have hp := h w0 hw0
  by_cases ht : w0.tag = tag <;> simp [ht] at hmap <;> rw [← hmap] <;> exact hp

/-- The fan-out over the active wrappers succeeds whenever no stored provider
synchronously throws for the queried uri. -/
theorem runWrappers_ok (u : Uri) (ic : Bool) (tags : List Nat) :
    ∀ (store : List Wrapper) (em : Emitters),
      (∀ w ∈ store, isSyncThrow (w.provider u) = false) →
      ∃ out store' em', runWrappers u ic tags store em = .ok (out, store', em') := by
  induction tags with
  | nil => intro store em _; exact ⟨_, _, _, rfl⟩
  | cons tag rest ih =>
    intro store em h
    rcases hf : findWrapper store tag with _ | w
    · obtain ⟨out, store', em', heq⟩ := ih store em h
      exact ⟨_, _, _, by simp only [runWrappers, hf, heq]; rfl⟩
    · have hw : w ∈ store :=
        List.mem_of_find?_eq_some (by simpa [findWrapper] using hf)
      obtain ⟨r, ws', em', heq⟩ := getOrRetrieve_ok w.provider w.st em u ic (h w hw)
      obtain ⟨out, store2, em2, heq2⟩ := ih (updateWrapper store tag ws') em'
        (mem_updateWrapper_provider store tag ws' (fun pr => isSyncThrow (pr u) = false) h)
      exact ⟨_, _, _, by simp only [runWrappers, hf, heq, heq2]; rfl⟩

/-- Claim C4, refuted at a concrete input: a provider whose
provideDecorations throws synchronously. The provider call in fetchData is
not guarded by any try block, so the exception escapes getOrRetrieve and
getDecoration throws it to its caller. -/
theorem c4_sync_throw_escapes :
    getDecoration (registerDecorationsProvider initService pThrow).2 uA false
      = .error "boom" := rfl

/-- Claim C4 amended: provider faults delivered asynchronously are contained
- getDecoration succeeds whenever no registered provider throws
synchronously for the queried uri, a non-cancellation rejection of a still-
current request reverts the entry to the Unknown state (so a later query
re-fetches), and a cancellation-marked rejection is swallowed without any
state change; a synchronous throw from provideDecorations, however, does
escape to the caller of getDecoration. -/
theorem c4_async_faults_contained :
    (∀ (s : ServiceState) (u : Uri) (ic : Bool),
      (∀ w ∈ s.store, isSyncThrow (w.provider u) = false) →
      ∃ out s2, getDecoration s u ic = .ok (out, s2))
    ∧ (∀ (ws : WrapperState) (u : Uri) (rid : Nat),
        tstGet ws.data u = some (CacheVal.request rid) →
        tstGet (rejectRequest ws u rid false).data u = none)
    ∧ (∀ (ws : WrapperState) (u : Uri) (rid : Nat),
        rejectRequest ws u rid true = ws) := by
  refine ⟨?_, ?_, ?_⟩
  · intro s u ic h
    obtain ⟨out, store', em', heq⟩ := runWrappers_ok u ic s.active s.store s.em h
    exact ⟨_, _, by simp only [getDecoration, heq]; rfl⟩
  · intro ws u rid h
    unfold rejectRequest
    rw [if_pos ⟨rfl, h⟩]
    exact tstGet_delete_self _ u
  · intro ws u rid
    unfold rejectRequest
    rw [if_neg (fun hc => absurd hc.1 (by decide))]

/-- Closed instance of the amended claim C4: a service with one registered
synchronously-absent provider, and a concrete pending request rejected once
without and once with the cancellation marker. -/
theorem c4_async_faults_contained_witness :
    (∃ out s2, getDecoration (registerDecorationsProvider initService pAbsent).2 uA false
        = .ok (out, s2))
    ∧ tstGet (rejectRequest ⟨[(uA, CacheVal.request 0)], 1, [], [uA]⟩ uA 0 false).data uA
        = none
    ∧ rejectRequest ⟨[(uA, CacheVal.request 0)], 1, [], [uA]⟩ uA 0 true
        = ⟨[(uA, CacheVal.request 0)], 1, [], [uA]⟩ :=
  ⟨c4_async_faults_contained.1 _ uA false
      (by
        intro w hw
        simp only [registerDecorationsProvider, initService, List.nil_append,
          List.mem_singleton] at hw
        subst hw
        rfl),
    c4_async_faults_contained.2.1 _ uA 0 (by decide),
    c4_async_faults_contained.2.2 _ uA 0⟩

/-- A lookup finds something exactly when the cache holds an entry at
the key. -/
theorem tstGet_isSome_iff (m : List (Uri × CacheVal)) (u : Uri) :
    (tstGet m u).isSome = true ↔ ∃ v, (u, v) ∈ m := by
  induction m with
  | nil => simp [tstGet]
  | cons e rest ih =>
    obtain ⟨k, val⟩ := e
    by_cases h : k = u
    · subst h
      simp [tstGet]
    · simp only [tstGet, h, if_false, ih, List.mem_cons]
      constructor
      · rintro ⟨v, hv⟩
        exact ⟨v, Or.inr hv⟩
      · rintro ⟨v, hv | hv⟩
        · cases hv
          exact absurd rfl h
        · exact ⟨v, hv⟩

/-- The descendant search finds something exactly when the cache holds an
entry at some strict descendant of the key. -/
theorem tstFindSuperstr_isSome_iff (m : List (Uri × CacheVal)) (u : Uri) :
    (tstFindSuperstr m u).isSome = true ↔
      ∃ k v, (k, v) ∈ m ∧ isStrictDescendantOf k u = true := by
  simp only [tstFindSuperstr]
  split
  case isTrue hE =>
    simp only [Option.isSome_none, Bool.false_eq_true, false_iff]
    rintro ⟨k, v, hm, hd⟩
    rw [List.isEmpty_iff, List.map_eq_nil_iff, List.filter_eq_nil_iff] at hE
    exact hE (k, v) hm hd
  case isFalse hE =>
    simp only [Option.isSome_some, true_iff]
    rw [List.isEmpty_iff, List.map_eq_nil_iff] at hE
    obtain ⟨e, he⟩ := List.exists_mem_of_ne_nil _ hE
    rw [List.mem_filter] at he
    exact ⟨e.1, e.2, he.1, he.2⟩

/-- Claim C8, refuted at a concrete input: a provider settles for identifier
a with explicit absence - the fetch completes, the settled-absent state is
reached - yet knowsAbout(a) reports false, because the absence marker stored
by keepItem is the falsy JavaScript value undefined; the claim demands true
for an entry of any state, Settled-absent included. -/
theorem c8_settled_absent_unknown_to_knows_about :
    getOrRetrieve pAbsent initWrapper initEmitters uA false
      = .ok ([], ⟨[], 1, [], [uA]⟩, initEmitters)
    ∧ knowsAboutData (⟨[], 1, [], [uA]⟩ : WrapperState).data uA = false := ⟨rfl, rfl⟩

/-- Claim C8 amended: knowsAbout(id) returns true exactly when the cache
holds a Pending or Settled-present entry for id itself, or an entry at some
strict descendant of id; a Settled-absent result leaves no entry behind (it
is stored as the falsy undefined marker) and never makes knowsAbout true. -/
theorem c8_knows_about_characterization (m : List (Uri × CacheVal)) (u : Uri) :
    knowsAboutData m u = true ↔
      (∃ v, (u, v) ∈ m) ∨ ∃ k v, (k, v) ∈ m ∧ isStrictDescendantOf k u = true := by
  unfold knowsAboutData
  rw [Bool.or_eq_true]
  exact or_congr (tstGet_isSome_iff m u) (tstFindSuperstr_isSome_iff m u)
